import Mathlib

/-!
Verification of the tex3-mouselook LE executable patcher
(`src/tex3patch/le.py`, `src/tex3patch/patch.py`) against its
natural-language specification.

Byte buffers are modelled as `List Nat`, each element a byte value
(`< 256` where a theorem needs it).  Python's clamping slice
`b[i:j]` is `(b.drop i).take (j - i)`; fallible code returns
`Option`/`Except`.
-/

set_option maxRecDepth 100000

namespace Tex3

/-- One decoded fixup record, mirroring `FixupTuple` of `le.py`:
`id` is the variant tag string, `src`/`flags` the raw bytes,
`objnum` the 0-based object number (may be `-1` when the wire byte
was 0, hence `Int`), `srcoff` the 16-bit source offset, `data` the
optional 16/32-bit operand. -/
structure FixupTuple where
  id : String
  src : Nat
  flags : Nat
  objnum : Int
  srcoff : Nat
  data : Option Nat
deriving DecidableEq, Repr

/-- Embeds `fixups_decode` from `le.py` lines 140-193: walk the buffer,
five header bytes per record (`src`, `flags`, `srcoff` u16le,
1-based `objnum`), then dispatch on `src` (0x7/0x5/0x6 with a
16- or 32-bit data word chosen by `flags & 0x10`, 0x2 with none).
Any other `src`, or a truncated record, is the Python
`RuntimeError`/`IndexError`, modelled as `none`. -/
def fixups_decode : List Nat → Option (List FixupTuple)
  | [] => some []
  | src :: flags :: s0 :: s1 :: ob :: rest =>
    let srcoff := s0 + 256 * s1
    let objnum : Int := (ob : Int) - 1
    if src = 0x7 then
      if flags.testBit 4 then
        match rest with
        | d0 :: d1 :: d2 :: d3 :: rest2 =>
          (fixups_decode rest2).map
            (FixupTuple.mk "fix_32off_32" src flags objnum srcoff
              (some (d0 + 256 * d1 + 65536 * d2 + 16777216 * d3)) :: ·)
        | _ => none
      else
        match rest with
        | d0 :: d1 :: rest2 =>
          (fixups_decode rest2).map
            (FixupTuple.mk "fix_32off_16" src flags objnum srcoff
              (some (d0 + 256 * d1)) :: ·)
        | _ => none
    else if src = 0x5 then
      if flags.testBit 4 then
        match rest with
        | d0 :: d1 :: d2 :: d3 :: rest2 =>
          (fixups_decode rest2).map
            (FixupTuple.mk "fix_16off_32" src flags objnum srcoff
              (some (d0 + 256 * d1 + 65536 * d2 + 16777216 * d3)) :: ·)
        | _ => none
      else
        match rest with
        | d0 :: d1 :: rest2 =>
          (fixups_decode rest2).map
            (FixupTuple.mk "fix_16off_16" src flags objnum srcoff
              (some (d0 + 256 * d1)) :: ·)
        | _ => none
    else if src = 0x6 then
      if flags.testBit 4 then
        match rest with
        | d0 :: d1 :: d2 :: d3 :: rest2 =>
          (fixups_decode rest2).map
            (FixupTuple.mk "fix_1632ptr_32" src flags objnum srcoff
              (some (d0 + 256 * d1 + 65536 * d2 + 16777216 * d3)) :: ·)
        | _ => none
      else
        match rest with
        | d0 :: d1 :: rest2 =>
          (fixups_decode rest2).map
            (FixupTuple.mk "fix_1632ptr_16" src flags objnum srcoff
              (some (d0 + 256 * d1)) :: ·)
        | _ => none
    else if src = 0x2 then
      (fixups_decode rest).map
        (FixupTuple.mk "fix_16sel" src flags objnum srcoff none :: ·)
    else none
  | _ => none

/-- Serialize one record, mirroring the loop body of `fixups_encode`
(`le.py` lines 122-137).  Python raises (`bytearray.append` range
check, `struct` pack range check, `RuntimeError` on an unknown `id`,
`TypeError` on a missing data word) where this returns `none`. -/
def fixup_encode_one (r : FixupTuple) : Option (List Nat) :=
  if r.src < 256 ∧ r.flags < 256 ∧ r.srcoff < 65536 ∧
      0 ≤ r.objnum + 1 ∧ r.objnum + 1 < 256 then
    let head := [r.src, r.flags, r.srcoff % 256, r.srcoff / 256,
      (r.objnum + 1).toNat]
    if r.id = "fix_32off_16" ∨ r.id = "fix_16off_16" ∨ r.id = "fix_1632ptr_16" then
      match r.data with
      | some d => if d < 65536 then some (head ++ [d % 256, d / 256]) else none
      | none => none
    else if r.id = "fix_32off_32" ∨ r.id = "fix_16off_32" ∨ r.id = "fix_1632ptr_32" then
      match r.data with
      | some d =>
        if d < 4294967296 then
          some (head ++ [d % 256, d / 256 % 256, d / 65536 % 256, d / 16777216 % 256])
        else none
      | none => none
    else if r.id = "fix_16sel" then some head
    else none
  else none

/-- Embeds `fixups_encode` from `le.py`: concatenation of the per-record
serializations. -/
def fixups_encode : List FixupTuple → Option (List Nat)
  | [] => some []
  | r :: rs => do
    let b ← fixup_encode_one r
    let bs ← fixups_encode rs
    pure (b ++ bs)


/-- Python `bytearray` slice assignment `buf[off : off + len(payload)]
= payload` as used by the patch engine (`patch.py` lines 1366-1369):
the result is `buf[:off] ++ payload ++ buf[off + len(payload):]`. -/
def splice_bytes (buf payload : List Nat) (off : Nat) : List Nat :=
  buf.take off ++ payload ++ buf.drop (off + payload.length)

/-- Embeds `find_offset` from `patch.py` lines 87-101.  `utils.grep` is an
external collaborator (mrcrowbar wrapping Python `re`); it is
abstracted here by `matches`, the list of match start positions it
returns for `pattern` over the page buffer.  The guard order is the
source's: empty pattern, then no match, then multiple matches. -/
def find_offset (pattern : List Nat) (ms : List Nat) (offset : Nat) :
    Except String Nat :=
  if pattern = [] then .error "No pattern"
  else if ms = [] then .error "Could not find offset"
  else if ms.length > 1 then .error "Multiple offset matches found"
  else .ok (ms.headD 0 + offset)

/-- Fixup-removal loop of the patch engine (`patch.py` lines
1267-1285), page counter made explicit: page `i` is skipped when
`i*ps >= hi` or `i*ps + ps < lo`; otherwise the records whose
absolute address `srcoff + i*ps` lies in `[lo, hi)` are popped
(in reverse index order in the source, which equals a filter). -/
def remove_fixups_from (lo hi ps : Nat) : Nat → List (List FixupTuple) → List (List FixupTuple)
  | _, [] => []
  | i, rs :: rest =>
    (if hi ≤ i * ps ∨ i * ps + ps < lo then rs
     else rs.filter (fun r => !decide (lo ≤ r.srcoff + i * ps ∧ r.srcoff + i * ps < hi))) ::
    remove_fixups_from lo hi ps (i + 1) rest

/-- Step 1 of applying a `CodePatch` with range `[lo, hi)`:
`remove_fixups_from` starting at page 0. -/
def remove_patched_fixups (records : List (List FixupTuple)) (lo hi ps : Nat) :
    List (List FixupTuple) :=
  remove_fixups_from lo hi ps 0 records


/-- Little-endian 16-bit read at index `i` (mrcrowbar
`from_uint16_le` over a 2-byte slice; call sites keep reads in
bounds, out-of-range positions default to 0). -/
def u16at (l : List Nat) (i : Nat) : Nat :=
  l.getD i 0 + 256 * l.getD (i + 1) 0

/-- Little-endian 32-bit read at index `i` (mrcrowbar
`from_uint32_le` over a 4-byte slice). -/
def u32at (l : List Nat) (i : Nat) : Nat :=
  l.getD i 0 + 256 * l.getD (i + 1) 0 + 65536 * l.getD (i + 2) 0 +
    16777216 * l.getD (i + 3) 0

/-- The `while ptr < len(exe)` walk of `search_for_le` (`le.py` lines
88-110), fuelled to make the possibly non-terminating Python loop
(`total_size` can be 0) a total function: read the 64-byte header at
`ptr`; on magic MZ/BW with relocation-table offset 0x40 and nonzero
`code32_start` return `(ptr, ptr + code32_start)`; otherwise advance
by `(page_count << 9) + last_page_bytes`, minus 0x200 for MZ, and
continue.  A non-MZ/BW header or running off the end is the Python
`RuntimeError`, modelled as `none`. -/
def search_for_le_from (exe : List Nat) : Nat → Nat → Option (Nat × Nat)
  | 0, _ => none
  | fuel + 1, ptr =>
    if ptr < exe.length then
      let header := (exe.drop ptr).take 64
      if header.take 2 = [0x4D, 0x5A] ∨ header.take 2 = [0x42, 0x57] then
        if u16at header 0x18 = 0x40 ∧ u16at header 0x3C ≠ 0 then
          some (ptr, ptr + u16at header 0x3C)
        else
          let total0 := u16at header 0x4 * 512 + u16at header 0x2
          let total := if header.take 2 = [0x4D, 0x5A] then total0 - 0x200 else total0
          search_for_le_from exe fuel (ptr + total)
      else none
    else none

/-- Embeds `search_for_le(exe)`: start the walk at offset 0 with enough fuel
for any terminating run. -/
def search_for_le (exe : List Nat) : Option (Nat × Nat) :=
  search_for_le_from exe (exe.length + 1) 0

/-- Concrete two-stub image for the LE-locator scenario: a 64-byte
outer MZ stub (reloc-table offset 0, total size 0x240 - 0x200 = 64)
followed at offset 64 by an inner MZ header with reloc-table offset
0x40 and `code32_start = 128`. -/
def twoStubImage : List Nat :=
  [0x4D, 0x5A, 64, 0, 1, 0] ++ List.replicate 58 0 ++
  ([0x4D, 0x5A] ++ List.replicate 22 0 ++ [0x40, 0] ++ List.replicate 34 0 ++
    [0x80, 0] ++ List.replicate 2 0)

/-- The opcode forms distinguished by the fixup synthesizer's `match`
(`patch.py` lines 1296-1364); `other` stands for every other
`iced_x86` opcode, which the match falls through. -/
inductive X86Code where
  | add_rm32_r32 | mov_rm32_imm32 | and_r8_rm8 | test_rm8_imm8 | cmp_r32_rm32
  | cmp_rm8_imm8 | mov_r8_rm8 | mov_r32_rm32 | add_r32_rm32 | and_rm8_imm8
  | mov_rm32_r32 | sub_rm32_r32 | mov_al_moffs8 | mov_moffs32_eax | mov_eax_moffs32
  | mov_rm16_imm16 | jmp_rm32 | other
deriving DecidableEq, Repr

/-- One instruction as reported by the external `iced_x86` decoder:
its IP (= offset of the instruction inside the payload, decoding
starts at IP 0), opcode form, and memory displacement. -/
structure X86Instr where
  ip : Nat
  code : X86Code
  memory_displacement : Nat
deriving DecidableEq, Repr

/-- Constant `CODE_OBJ = 0` of `patch.py` line 1265 (stored in the 0-based
`objnum` field, hence `Int`). -/
def CODE_OBJ : Int := 0

/-- Constant `DATA_OBJ = 2` of `patch.py` line 1266. -/
def DATA_OBJ : Int := 2

/-- The per-instruction fixup synthesis (`patch.py` lines 1287-1364):
for a supported opcode form, the new `fix_32off_32` record (src 0x7,
flags 0x10) for page `(mod_offset + ip) / ps`, with `srcoff =
(mod_offset + ip) % ps + operand_offset` and `data` = the
little-endian dword of the payload at `ip + operand_offset`;
`MOV_RM32_R32`/`SUB_RM32_R32` only when the decoded memory
displacement is nonzero (Python truthiness); `none` otherwise. -/
def fixup_for_instr (mod_code : List Nat) (mod_offset ps : Nat) (i : X86Instr) :
    Option (Nat × FixupTuple) :=
  let offset := mod_offset + i.ip
  let srcoff := offset % ps
  let page := offset / ps
  match i.code with
  | .add_rm32_r32 | .mov_rm32_imm32 | .and_r8_rm8 | .test_rm8_imm8 | .cmp_r32_rm32
  | .cmp_rm8_imm8 | .mov_r8_rm8 | .mov_r32_rm32 | .add_r32_rm32 | .and_rm8_imm8 =>
    some (page, FixupTuple.mk "fix_32off_32" 0x7 0x10 DATA_OBJ (srcoff + 2)
      (some (u32at mod_code (i.ip + 2))))
  | .mov_rm32_r32 | .sub_rm32_r32 =>
    if i.memory_displacement ≠ 0 then
      some (page, FixupTuple.mk "fix_32off_32" 0x7 0x10 DATA_OBJ (srcoff + 2)
        (some (u32at mod_code (i.ip + 2))))
    else none
  | .mov_al_moffs8 | .mov_moffs32_eax | .mov_eax_moffs32 =>
    some (page, FixupTuple.mk "fix_32off_32" 0x7 0x10 DATA_OBJ (srcoff + 1)
      (some (u32at mod_code (i.ip + 1))))
  | .mov_rm16_imm16 =>
    some (page, FixupTuple.mk "fix_32off_32" 0x7 0x10 DATA_OBJ (srcoff + 3)
      (some (u32at mod_code (i.ip + 3))))
  | .jmp_rm32 =>
    some (page, FixupTuple.mk "fix_32off_32" 0x7 0x10 CODE_OBJ (srcoff + 3)
      (some (u32at mod_code (i.ip + 3))))
  | .other => none

/-- Embeds `fixup_records[page].append(fixup)` for a synthesized record, or
no change when the instruction produced none. -/
def append_fixup (records : List (List FixupTuple)) :
    Option (Nat × FixupTuple) → List (List FixupTuple)
  | none => records
  | some (p, fx) => records.set p (records.getD p [] ++ [fx])

/-- Step 2 of applying a `CodePatch`: fold the synthesis over the
instruction stream the external decoder produced for the payload. -/
def add_patch_fixups (records : List (List FixupTuple)) (mod_code : List Nat)
    (mod_offset ps : Nat) (instrs : List X86Instr) : List (List FixupTuple) :=
  instrs.foldl
    (fun recs i => append_fixup recs (fixup_for_instr mod_code mod_offset ps i))
    records

/-- One iteration of the code-patch loop (`patch.py` lines
1267-1366) for a single `CodePatch`: step 1 removes the obsolete
fixups whose absolute address the skip/filter logic places in
`[mod_offset, mod_offset + len(mod_code))`, step 2 synthesizes new
fixups from the decoded instruction stream (`instrs` is the external
`iced_x86` decoder's output for `mod_code`), step 3 splices the
payload into the page buffer. -/
def apply_code_patch (records : List (List FixupTuple)) (page_data mod_code : List Nat)
    (mod_offset ps : Nat) (instrs : List X86Instr) :
    List (List FixupTuple) × List Nat :=
  let records1 := remove_patched_fixups records mod_offset
    (mod_offset + mod_code.length) ps
  let records2 := add_patch_fixups records1 mod_code mod_offset ps instrs
  (records2, splice_bytes page_data mod_code mod_offset)

/-- One token of the byte-regex patterns used by `detect_version`
(`patch.py` lines 59-84): a literal byte, a two-way literal
alternation (the `(?:\x0a\x0d|\x0d\x0a)` line terminators), a greedy
one-or-more character class `plus`, and a capturing greedy
one-or-more class `gplus` (the `([A-Za-z ]+)`-style groups). -/
inductive RTok where
  | lit (c : Nat)
  | alt2 (a b : List Nat)
  | plus (p : Nat → Bool)
  | gplus (p : Nat → Bool)

/-- Length of the longest prefix of `s` whose bytes satisfy `p`. -/
def runLen (p : Nat → Bool) : List Nat → Nat
  | [] => 0
  | b :: s => if p b then runLen p s + 1 else 0

/-- Backtracking matcher with Python `re` preference order: a match
of the token list against a prefix of `s`, returning the remaining
suffix and the captures in group order.  Alternations try the left
branch first; `plus`/`gplus` try the longest run first and backtrack
down to one repetition (the candidate repetition counts
`maxRun, ..., 1` are enumerated by `findSome?`). -/
def matchToks : List RTok → List Nat → Option (List Nat × List (List Nat))
  | [], s => some (s, [])
  | .lit _ :: _, [] => none
  | .lit c :: ts, b :: s => if b = c then matchToks ts s else none
  | .alt2 a b :: ts, s =>
    (if a.isPrefixOf s then matchToks ts (s.drop a.length) else none).orElse
      (fun _ => if b.isPrefixOf s then matchToks ts (s.drop b.length) else none)
  | .plus p :: ts, s =>
    ((List.range (runLen p s)).map (fun j => runLen p s - j)).findSome?
      (fun k => matchToks ts (s.drop k))
  | .gplus p :: ts, s =>
    ((List.range (runLen p s)).map (fun j => runLen p s - j)).findSome?
      (fun k => (matchToks ts (s.drop k)).map (fun rc => (rc.1, s.take k :: rc.2)))

/-- Leftmost match: try `matchToks` at every start position in order,
returning the start position and the captures of the first success
(`re.finditer`'s first match). -/
def reSearchFrom (toks : List RTok) : List Nat → Nat → Option (Nat × List (List Nat))
  | s, pos =>
    match matchToks toks s with
    | some (_, caps) => some (pos, caps)
    | none =>
      match s with
      | [] => none
      | _ :: s' => reSearchFrom toks s' (pos + 1)

/-- Embeds `utils.grep(pattern, data)[0]` for the detect-version patterns. -/
def reSearch (toks : List RTok) (s : List Nat) : Option (Nat × List (List Nat)) :=
  reSearchFrom toks s 0

/-- Byte class `[A-Za-z]` of the language pattern. -/
def alphaByte (c : Nat) : Bool :=
  decide ((65 ≤ c ∧ c ≤ 90) ∨ (97 ≤ c ∧ c ≤ 122))

/-- Byte class `[A-Za-z ]` of the title group. -/
def titleByte (c : Nat) : Bool :=
  alphaByte c || c == 32

/-- Byte class `[0-9.]` of the version group. -/
def verByte (c : Nat) : Bool :=
  decide ((48 ≤ c ∧ c ≤ 57) ∨ c = 46)

/-- The bytes of `"Under a Killing Moon"`. -/
def uakmBytes : List Nat :=
  [85, 110, 100, 101, 114, 32, 97, 32, 75, 105, 108, 108, 105, 110, 103, 32, 77, 111, 111, 110]

/-- The bytes of `"The Pandora Directive"`. -/
def pandoraBytes : List Nat :=
  [84, 104, 101, 32, 80, 97, 110, 100, 111, 114, 97, 32, 68, 105, 114, 101, 99, 116, 105, 118, 101]

/-- The bytes of `"UNKNOWN"`. -/
def unknownBytes : List Nat := [85, 78, 75, 78, 79, 87, 78]

/-- Tokens of `VERSION_PATTERN` of `detect_version` (`patch.py` line 61):
`\xda\xc4+\xbf(?:\x0a\x0d|\x0d\x0a)\xb3\x20+([A-Za-z ]+)\x20+\xb3`
`(?:\x0a\x0d|\x0d\x0a)\xb3\x20+Version ([0-9.]+)\x20+\xb3`. -/
def versionPattern : List RTok :=
  [.lit 0xda, .plus (fun c => c == 0xc4), .lit 0xbf,
   .alt2 [0x0a, 0x0d] [0x0d, 0x0a], .lit 0xb3,
   .plus (fun c => c == 0x20), .gplus titleByte, .plus (fun c => c == 0x20), .lit 0xb3,
   .alt2 [0x0a, 0x0d] [0x0d, 0x0a], .lit 0xb3,
   .plus (fun c => c == 0x20),
   .lit 86, .lit 101, .lit 114, .lit 115, .lit 105, .lit 111, .lit 110, .lit 32,
   .gplus verByte, .plus (fun c => c == 0x20), .lit 0xb3]

/-- Tokens of `LANGUAGE_PATTERN` of `detect_version` (`patch.py` line 72):
`\x00([A-Za-z]+)\x00Retrieving DIGI settings`. -/
def languagePattern : List RTok :=
  [.lit 0, .gplus alphaByte, .lit 0,
   .lit 82, .lit 101, .lit 116, .lit 114, .lit 105, .lit 101, .lit 118, .lit 105,
   .lit 110, .lit 103, .lit 32, .lit 68, .lit 73, .lit 71, .lit 73, .lit 32,
   .lit 115, .lit 101, .lit 116, .lit 116, .lit 105, .lit 110, .lit 103, .lit 115]

/-- Embeds `detect_version` (`patch.py` lines 59-84): scrape title and
version from the box-drawing version screen via `VERSION_PATTERN`
(first grep match), scrape the language via `LANGUAGE_PATTERN`
(default `"UNKNOWN"`), and reject any title other than the two
supported games.  The Python `DataNotFound` is `Except.error`. -/
def detect_version (page : List Nat) :
    Except String (List Nat × List Nat × List Nat) :=
  match reSearch versionPattern page with
  | none => .error "Failed to detect Under a Killing Moon or The Pandora Directive!"
  | some (_, caps) =>
    let game := caps.getD 0 []
    let version := caps.getD 1 []
    let language :=
      match reSearch languagePattern page with
      | some (_, lcaps) => lcaps.getD 0 []
      | none => unknownBytes
    if game = uakmBytes ∨ game = pandoraBytes then .ok (game, version, language)
    else .error "Unknown game"

/-- The S1 title-screen buffer of the claim: box top, LFCR, `\xb3`,
three spaces, `Under a Killing Moon`, three spaces, `\xb3`, LFCR,
`\xb3`, three spaces, `Version 1.02`, three spaces, `\xb3`. -/
def s1TitleScreen : List Nat :=
  [0xda, 0xc4, 0xc4, 0xc4, 0xbf, 0x0a, 0x0d, 0xb3, 32, 32, 32,
   85, 110, 100, 101, 114, 32, 97, 32, 75, 105, 108, 108, 105, 110, 103, 32, 77, 111, 111, 110,
   32, 32, 32, 0xb3, 0x0a, 0x0d, 0xb3, 32, 32, 32,
   86, 101, 114, 115, 105, 111, 110, 32, 49, 46, 48, 50, 32, 32, 32, 0xb3]

/-- The S1 buffer with a single space before the `\xb3` closing the
title line (the shape the game executables actually carry, on which
the greedy title group captures the bare title). -/
def s1TitleScreenOneSpace : List Nat :=
  [0xda, 0xc4, 0xc4, 0xc4, 0xbf, 0x0a, 0x0d, 0xb3, 32, 32, 32,
   85, 110, 100, 101, 114, 32, 97, 32, 75, 105, 108, 108, 105, 110, 103, 32, 77, 111, 111, 110,
   32, 0xb3, 0x0a, 0x0d, 0xb3, 32, 32, 32,
   86, 101, 114, 115, 105, 111, 110, 32, 49, 46, 48, 50, 32, 32, 32, 0xb3]

/-- Little-endian serialization of a 16-bit value (`utils.to_uint16_le`). -/
def u16le (x : Nat) : List Nat := [x % 256, x / 256 % 256]

/-- Little-endian serialization of a 32-bit value (`utils.to_uint32_le`). -/
def u32le (x : Nat) : List Nat :=
  [x % 256, x / 256 % 256, x / 65536 % 256, x / 16777216 % 256]

/-- The half-open byte slice `f[a:b]` (Python clamping slice). -/
def sliceL (f : List Nat) (a b : Nat) : List Nat :=
  (f.drop a).take (b - a)

/-- Structure `LEHeader` of `le.py` lines 9-56: magic "LE", two order bytes, a
32-bit format level, 16-bit CPU and OS types, then 41 little-endian
32-bit fields.  Total serialized size 176 bytes. -/
structure LEHeader where
  b_ord : Nat
  w_ord : Nat
  format_level : Nat
  cpu_type : Nat
  os_type : Nat
  module_version : Nat
  module_flags : Nat
  module_num_pages : Nat
  eip_obj_num : Nat
  eip : Nat
  esp_obj_num : Nat
  esp : Nat
  page_size : Nat
  page_offset_shift : Nat
  fixup_section_size : Nat
  fixup_section_csum : Nat
  loader_section_size : Nat
  loader_section_csum : Nat
  obj_table_offset : Nat
  obj_count : Nat
  obj_page_table_offset : Nat
  obj_iter_pages_offset : Nat
  res_table_offset : Nat
  res_count : Nat
  resident_name_table_offset : Nat
  entry_table_offset : Nat
  module_directives_offset : Nat
  module_directives_count : Nat
  fixup_page_table_offset : Nat
  fixup_record_table_offset : Nat
  import_module_table_offset : Nat
  import_module_count : Nat
  import_proc_table_offset : Nat
  per_page_csum_offset : Nat
  data_pages_offset : Nat
  preload_pages_count : Nat
  nonres_name_table_offset : Nat
  nonres_name_table_length : Nat
  nonres_name_table_csum : Nat
  auto_ds_object_count : Nat
  debug_info_offset : Nat
  debug_info_length : Nat
  instance_preload_count : Nat
  instance_demand_count : Nat
  heap_size : Nat
  stack_size : Nat
deriving DecidableEq, Repr

/-- Serialize an `LEHeader` (mrcrowbar `export_data`), field by field
in wire order. -/
def LEHeader.export (h : LEHeader) : List Nat :=
  [0x4C, 0x45] ++ [h.b_ord % 256] ++ [h.w_ord % 256] ++ u32le h.format_level ++
  u16le h.cpu_type ++ u16le h.os_type ++
  u32le h.module_version ++
  u32le h.module_flags ++
  u32le h.module_num_pages ++
  u32le h.eip_obj_num ++
  u32le h.eip ++
  u32le h.esp_obj_num ++
  u32le h.esp ++
  u32le h.page_size ++
  u32le h.page_offset_shift ++
  u32le h.fixup_section_size ++
  u32le h.fixup_section_csum ++
  u32le h.loader_section_size ++
  u32le h.loader_section_csum ++
  u32le h.obj_table_offset ++
  u32le h.obj_count ++
  u32le h.obj_page_table_offset ++
  u32le h.obj_iter_pages_offset ++
  u32le h.res_table_offset ++
  u32le h.res_count ++
  u32le h.resident_name_table_offset ++
  u32le h.entry_table_offset ++
  u32le h.module_directives_offset ++
  u32le h.module_directives_count ++
  u32le h.fixup_page_table_offset ++
  u32le h.fixup_record_table_offset ++
  u32le h.import_module_table_offset ++
  u32le h.import_module_count ++
  u32le h.import_proc_table_offset ++
  u32le h.per_page_csum_offset ++
  u32le h.data_pages_offset ++
  u32le h.preload_pages_count ++
  u32le h.nonres_name_table_offset ++
  u32le h.nonres_name_table_length ++
  u32le h.nonres_name_table_csum ++
  u32le h.auto_ds_object_count ++
  u32le h.debug_info_offset ++
  u32le h.debug_info_length ++
  u32le h.instance_preload_count ++
  u32le h.instance_demand_count ++
  u32le h.heap_size ++
  u32le h.stack_size

/-- Decidable equality for `Except` results (used to evaluate the
pipeline on concrete inputs). -/
def exceptDecEq {e a : Type} [DecidableEq e] [DecidableEq a] :
    DecidableEq (Except e a)
  | .error x, .error y =>
    if h : x = y then .isTrue (by rw [h]) else .isFalse (fun hh => h (by cases hh; rfl))
  | .error _, .ok _ => .isFalse (fun hh => Except.noConfusion hh)
  | .ok _, .error _ => .isFalse (fun hh => Except.noConfusion hh)
  | .ok x, .ok y =>
    if h : x = y then .isTrue (by rw [h]) else .isFalse (fun hh => h (by cases hh; rfl))

instance {e a : Type} [DecidableEq e] [DecidableEq a] : DecidableEq (Except e a) :=
  exceptDecEq

/-- The writer of `patch.py` lines 1371-1413: rebuild the page table
(prefix sums of the re-encoded per-page record lengths) and the
record table, recompute the header fields, and emit
`f[:le] ++ header ++ loader ++ page table ++ records ++
post-fixup blob ++ page data`. -/
def write_output (f : List Nat) (mz le : Nat) (H : LEHeader)
    (fixup_output : List (List Nat)) (page_data : List Nat) : LEHeader × List Nat :=
  let offsets := (fixup_output.map List.length).scanl (fun a x => a + x) 0
  let fixup_page_table_output := offsets.flatMap u32le
  let fixup_record_table_output := fixup_output.flatten
  let post_fixup_start := H.import_module_table_offset
  let post_fixup_end := mz + H.data_pages_offset - le
  let post_fixup_blob :=
    (f.drop (le + post_fixup_start)).take (post_fixup_end - post_fixup_start)
  let new_frto := H.fixup_page_table_offset + fixup_page_table_output.length
  let new_fss := fixup_page_table_output.length + fixup_record_table_output.length
  let new_imto := H.fixup_page_table_offset + new_fss
  let new_dpo := le + new_imto + post_fixup_blob.length - mz
  let H2 := { H with
    fixup_record_table_offset := new_frto
    fixup_section_size := new_fss
    fixup_section_csum := 0
    import_module_table_offset := new_imto
    import_proc_table_offset := new_imto
    data_pages_offset := new_dpo }
  (H2, f.take le ++ LEHeader.export H2 ++
    sliceL f (le + 176) (le + H.fixup_page_table_offset) ++
    fixup_page_table_output ++ fixup_record_table_output ++
    post_fixup_blob ++ page_data)

theorem encode_cons_d32 (idstr : String) (src flags s0 s1 ob d0 d1 d2 d3 : Nat)
    (l' : List FixupTuple) (rest2 : List Nat)
    (hid : idstr = "fix_32off_32" ∨ idstr = "fix_16off_32" ∨ idstr = "fix_1632ptr_32")
    (hsrc : src < 256) (hflags : flags < 256) (hs0 : s0 < 256) (hs1 : s1 < 256)
    (hob : ob < 256) (hd0 : d0 < 256) (hd1 : d1 < 256) (hd2 : d2 < 256) (hd3 : d3 < 256)
    (henc : fixups_encode l' = some rest2) :
    fixups_encode (FixupTuple.mk idstr src flags ((ob : Int) - 1) (s0 + 256 * s1)
        (some (d0 + 256 * d1 + 65536 * d2 + 16777216 * d3)) :: l')
      = some (src :: flags :: s0 :: s1 :: ob :: d0 :: d1 :: d2 :: d3 :: rest2) := by
  have e0 : s0 % 256 = s0 := by omega
  have e1 : (s0 + 256 * s1) / 256 = s1 := by omega
  have e2 : (d0 + 256 * d1 + 65536 * d2 + 16777216 * d3) % 256 = d0 := by omega
  have e3 : (d0 + 256 * d1 + 65536 * d2 + 16777216 * d3) / 256 % 256 = d1 := by omega
  have e4 : (d0 + 256 * d1 + 65536 * d2 + 16777216 * d3) / 65536 % 256 = d2 := by omega
  have e5 : (d0 + 256 * d1 + 65536 * d2 + 16777216 * d3) / 16777216 % 256 = d3 := by omega
  rcases hid with rfl | rfl | rfl <;>
  · simp only [fixups_encode, fixup_encode_one, henc]
    norm_num
    rw [if_pos (by omega : src < 256 ∧ flags < 256 ∧ s0 + 256 * s1 < 65536 ∧ ob < 256),
      if_neg (by decide), if_pos (by omega :
        d0 + 256 * d1 + 65536 * d2 + 16777216 * d3 < 4294967296)]
    simp [e0, e1, e2, e3, e4, e5]

theorem encode_cons_d16 (idstr : String) (src flags s0 s1 ob d0 d1 : Nat)
    (l' : List FixupTuple) (rest2 : List Nat)
    (hid : idstr = "fix_32off_16" ∨ idstr = "fix_16off_16" ∨ idstr = "fix_1632ptr_16")
    (hsrc : src < 256) (hflags : flags < 256) (hs0 : s0 < 256) (hs1 : s1 < 256)
    (hob : ob < 256) (hd0 : d0 < 256) (hd1 : d1 < 256)
    (henc : fixups_encode l' = some rest2) :
    fixups_encode (FixupTuple.mk idstr src flags ((ob : Int) - 1) (s0 + 256 * s1)
        (some (d0 + 256 * d1)) :: l')
      = some (src :: flags :: s0 :: s1 :: ob :: d0 :: d1 :: rest2) := by
  have e0 : s0 % 256 = s0 := by omega
  have e1 : (s0 + 256 * s1) / 256 = s1 := by omega
  have e2 : (d0 + 256 * d1) % 256 = d0 := by omega
  have e3 : (d0 + 256 * d1) / 256 = d1 := by omega
  have hd16 : d0 + 256 * d1 < 65536 := by omega
  rcases hid with rfl | rfl | rfl <;>
  · simp only [fixups_encode, fixup_encode_one, henc]
    norm_num
    rw [if_pos (by omega : src < 256 ∧ flags < 256 ∧ s0 + 256 * s1 < 65536 ∧ ob < 256),
      if_pos hd16]
    simp [e0, e1, e2, e3]
    all_goals omega

theorem encode_cons_sel (src flags s0 s1 ob : Nat)
    (l' : List FixupTuple) (rest2 : List Nat)
    (hsrc : src < 256) (hflags : flags < 256) (hs0 : s0 < 256) (hs1 : s1 < 256)
    (hob : ob < 256)
    (henc : fixups_encode l' = some rest2) :
    fixups_encode (FixupTuple.mk "fix_16sel" src flags ((ob : Int) - 1)
        (s0 + 256 * s1) none :: l')
      = some (src :: flags :: s0 :: s1 :: ob :: rest2) := by
  have e0 : s0 % 256 = s0 := by omega
  have e1 : (s0 + 256 * s1) / 256 = s1 := by omega
  simp only [fixups_encode, fixup_encode_one, henc]
  norm_num
  rw [if_pos (by omega : src < 256 ∧ flags < 256 ∧ s0 + 256 * s1 < 65536 ∧ ob < 256)]
  simp [e0, e1]
theorem fixups_roundtrip_aux :
    ∀ (B : List Nat), (∀ b ∈ B, b < 256) →
      ∀ l, fixups_decode B = some l → fixups_encode l = some B := by
  intro B
  induction B using fixups_decode.induct with
  | case1 =>
    intro _ l hdec
    simp only [fixups_decode, Option.some.injEq] at hdec
    simp [← hdec, fixups_encode]
  | case2 flags s0 s1 ob hbit d0 d1 d2 d3 rest2 ih =>
    intro hB l hdec
    rw [fixups_decode.eq_def] at hdec
    simp [hbit] at hdec
    obtain ⟨l', hl', rfl⟩ := hdec
    exact encode_cons_d32 _ _ _ _ _ _ _ _ _ _ _ _ (Or.inl rfl)
      (by norm_num) (hB _ (by simp)) (hB _ (by simp)) (hB _ (by simp)) (hB _ (by simp))
      (hB _ (by simp)) (hB _ (by simp)) (hB _ (by simp)) (hB _ (by simp))
      (ih (fun b hb => hB b (by simp [hb])) l' hl')
  | case3 flags s0 s1 ob rest hbit hne =>
    intro hB l hdec
    rcases rest with _ | ⟨d0, _ | ⟨d1, _ | ⟨d2, _ | ⟨d3, rest⟩⟩⟩⟩ <;>
      first
        | exact absurd rfl (hne _ _ _ _ _)
        | simp [fixups_decode, hbit] at hdec
  | case4 flags s0 s1 ob hbit d0 d1 rest2 ih =>
    intro hB l hdec
    rw [fixups_decode.eq_def] at hdec
    simp [hbit] at hdec
    obtain ⟨l', hl', rfl⟩ := hdec
    exact encode_cons_d16 _ _ _ _ _ _ _ _ _ _ (Or.inl rfl)
      (by norm_num) (hB _ (by simp)) (hB _ (by simp)) (hB _ (by simp)) (hB _ (by simp))
      (hB _ (by simp)) (hB _ (by simp))
      (ih (fun b hb => hB b (by simp [hb])) l' hl')
  | case5 flags s0 s1 ob rest hbit hne =>
    intro hB l hdec
    rcases rest with _ | ⟨d0, _ | ⟨d1, rest⟩⟩ <;>
      first
        | exact absurd rfl (hne _ _ _)
        | simp [fixups_decode, hbit] at hdec
  | case6 flags s0 s1 ob hbit d0 d1 d2 d3 rest2 h57 ih =>
    intro hB l hdec
    rw [fixups_decode.eq_def] at hdec
    simp [hbit] at hdec
    obtain ⟨l', hl', rfl⟩ := hdec
    exact encode_cons_d32 _ _ _ _ _ _ _ _ _ _ _ _ (Or.inr (Or.inl rfl))
      (by norm_num) (hB _ (by simp)) (hB _ (by simp)) (hB _ (by simp)) (hB _ (by simp))
      (hB _ (by simp)) (hB _ (by simp)) (hB _ (by simp)) (hB _ (by simp))
      (ih (fun b hb => hB b (by simp [hb])) l' hl')
  | case7 flags s0 s1 ob rest hbit hne h57 =>
    intro hB l hdec
    rcases rest with _ | ⟨d0, _ | ⟨d1, _ | ⟨d2, _ | ⟨d3, rest⟩⟩⟩⟩ <;>
      first
        | exact absurd rfl (hne _ _ _ _ _)
        | simp [fixups_decode, hbit] at hdec
  | case8 flags s0 s1 ob hbit d0 d1 rest2 h57 ih =>
    intro hB l hdec
    rw [fixups_decode.eq_def] at hdec
    simp [hbit] at hdec
    obtain ⟨l', hl', rfl⟩ := hdec
    exact encode_cons_d16 _ _ _ _ _ _ _ _ _ _ (Or.inr (Or.inl rfl))
      (by norm_num) (hB _ (by simp)) (hB _ (by simp)) (hB _ (by simp)) (hB _ (by simp))
      (hB _ (by simp)) (hB _ (by simp))
      (ih (fun b hb => hB b (by simp [hb])) l' hl')
  | case9 flags s0 s1 ob rest hbit hne h57 =>
    intro hB l hdec
    rcases rest with _ | ⟨d0, _ | ⟨d1, rest⟩⟩ <;>
      first
        | exact absurd rfl (hne _ _ _)
        | simp [fixups_decode, hbit] at hdec
  | case10 flags s0 s1 ob hbit d0 d1 d2 d3 rest2 h67 h65 ih =>
    intro hB l hdec
    rw [fixups_decode.eq_def] at hdec
    simp [hbit] at hdec
    obtain ⟨l', hl', rfl⟩ := hdec
    exact encode_cons_d32 _ _ _ _ _ _ _ _ _ _ _ _ (Or.inr (Or.inr rfl))
      (by norm_num) (hB _ (by simp)) (hB _ (by simp)) (hB _ (by simp)) (hB _ (by simp))
      (hB _ (by simp)) (hB _ (by simp)) (hB _ (by simp)) (hB _ (by simp))
      (ih (fun b hb => hB b (by simp [hb])) l' hl')
  | case11 flags s0 s1 ob rest hbit hne h67 h65 =>
    intro hB l hdec
    rcases rest with _ | ⟨d0, _ | ⟨d1, _ | ⟨d2, _ | ⟨d3, rest⟩⟩⟩⟩ <;>
      first
        | exact absurd rfl (hne _ _ _ _ _)
        | simp [fixups_decode, hbit] at hdec
  | case12 flags s0 s1 ob hbit d0 d1 rest2 h67 h65 ih =>
    intro hB l hdec
    rw [fixups_decode.eq_def] at hdec
    simp [hbit] at hdec
    obtain ⟨l', hl', rfl⟩ := hdec
    exact encode_cons_d16 _ _ _ _ _ _ _ _ _ _ (Or.inr (Or.inr rfl))
      (by norm_num) (hB _ (by simp)) (hB _ (by simp)) (hB _ (by simp)) (hB _ (by simp))
      (hB _ (by simp)) (hB _ (by simp))
      (ih (fun b hb => hB b (by simp [hb])) l' hl')
  | case13 flags s0 s1 ob rest hbit hne h67 h65 =>
    intro hB l hdec
    rcases rest with _ | ⟨d0, _ | ⟨d1, rest⟩⟩ <;>
      first
        | exact absurd rfl (hne _ _ _)
        | simp [fixups_decode, hbit] at hdec
  | case14 flags s0 s1 ob rest h27 h25 h26 ih =>
    intro hB l hdec
    rw [fixups_decode.eq_def] at hdec
    simp at hdec
    obtain ⟨l', hl', rfl⟩ := hdec
    exact encode_cons_sel _ _ _ _ _ _ _
      (by norm_num) (hB _ (by simp)) (hB _ (by simp)) (hB _ (by simp)) (hB _ (by simp))
      (ih (fun b hb => hB b (by simp [hb])) l' hl')
  | case15 src flags s0 s1 ob rest h7 h5 h6 h2 =>
    intro hB l hdec
    rw [fixups_decode.eq_def] at hdec
    simp [h7, h5, h6, h2] at hdec
  | case16 t hnil hcons =>
    intro hB l hdec
    rcases t with _ | ⟨a, _ | ⟨b, _ | ⟨c, _ | ⟨d, _ | ⟨e, rest⟩⟩⟩⟩⟩
    · exact absurd rfl hnil
    all_goals first
      | exact absurd rfl (hcons _ _ _ _ _ _)
      | simp [fixups_decode] at hdec


theorem remove_fixups_from_spec (lo hi ps : Nat) :
    ∀ (records : List (List FixupTuple)) (j i : Nat) (r : FixupTuple),
      r ∈ (remove_fixups_from lo hi ps j records).getD i [] →
      r.srcoff < ps →
      r ∈ records.getD i [] ∧
        ¬ (lo ≤ (j + i) * ps + r.srcoff ∧ (j + i) * ps + r.srcoff < hi) := by
  intro records
  induction records with
  | nil => intro j i r hr _; simp [remove_fixups_from] at hr
  | cons rs rest ih =>
    intro j i r hr hso
    cases i with
    | zero =>
      simp only [Nat.add_zero]
      simp only [remove_fixups_from, List.getD_cons_zero] at hr
      by_cases hskip : hi ≤ j * ps ∨ j * ps + ps < lo
      · rw [if_pos hskip] at hr
        refine ⟨by simpa using hr, ?_⟩
        rcases hskip with h | h
        · intro hc; omega
        · intro hc; omega
      · rw [if_neg hskip] at hr
        rcases List.mem_filter.mp hr with ⟨hmem, hpred⟩
        refine ⟨by simpa using hmem, ?_⟩
        intro hc
        simp only [Bool.not_eq_true'] at hpred
        have := of_decide_eq_false hpred
        exact this ⟨by omega, by omega⟩
    | succ i =>
      simp only [remove_fixups_from, List.getD_cons_succ] at hr
      have := ih (j + 1) i r hr hso
      refine ⟨by simpa using this.1, ?_⟩
      have harith : (j + 1 + i) = (j + (i + 1)) := by omega
      rw [harith] at this
      exact this.2

/-- Claim C10: a `CodePatch` or `DataPatch` splice whose range lies
inside the buffer replaces exactly the `len(payload)` bytes at
`[off, off + len(payload))`: the length is unchanged, every position
outside the range keeps its previous value, and the range holds the
payload. -/
theorem C10_splice_frame (buf payload : List Nat) (off : Nat)
    (h : off + payload.length ≤ buf.length) :
    (splice_bytes buf payload off).length = buf.length ∧
    (∀ i, i < off → (splice_bytes buf payload off)[i]? = buf[i]?) ∧
    (∀ i, off + payload.length ≤ i → (splice_bytes buf payload off)[i]? = buf[i]?) ∧
    (∀ i, i < payload.length → (splice_bytes buf payload off)[off + i]? = payload[i]?) := by
  have htake : (buf.take off).length = off := by
    simp [List.length_take]; omega
  have h2 : (buf.take off ++ payload).length = off + payload.length := by
    simp [htake]
  refine ⟨?_, ?_, ?_, ?_⟩
  · simp [splice_bytes]; omega
  · intro i hi
    have h1 : i < (buf.take off ++ payload).length := by rw [h2]; omega
    rw [splice_bytes, List.getElem?_append, if_pos h1, List.getElem?_append,
      if_pos (by rw [htake]; omega), List.getElem?_take, if_pos hi]
  · intro i hi
    have h1 : ¬ i < (buf.take off ++ payload).length := by rw [h2]; omega
    rw [splice_bytes, List.getElem?_append, if_neg h1, List.getElem?_drop, h2]
    congr 1
    omega
  · intro i hi
    have h1 : off + i < (buf.take off ++ payload).length := by rw [h2]; omega
    rw [splice_bytes, List.getElem?_append, if_pos h1, List.getElem?_append,
      if_neg (by rw [htake]; omega), htake]
    congr 1
    omega

/-- Claim C9 counterexample: with the empty pattern and a grep result
of exactly one match (Python: `re.finditer` on an empty pattern over
an empty buffer yields one zero-width match at 0), `find_offset`
raises instead of returning `start + base_delta = 0 + 5`. -/
theorem C9_find_offset_counterexample :
    find_offset [] [0] 5 = Except.error "No pattern" ∧
      find_offset [] [0] 5 ≠ Except.ok 5 := by
  refine ⟨rfl, ?_⟩
  intro h
  rw [show find_offset [] [0] 5 = Except.error "No pattern" from rfl] at h
  exact Except.noConfusion h

/-- Claim C9 amended: for a NONEMPTY pattern, `find_offset` returns
`start + base_delta` when the grep result has exactly one match and
fails with a `DetectionError` on zero or multiple matches; an empty
pattern always fails. -/
theorem C9_find_offset_amended (pattern ms : List Nat) (offset : Nat)
    (hp : pattern ≠ []) :
    (∀ m, ms = [m] → find_offset pattern ms offset = Except.ok (m + offset)) ∧
    (ms.length ≠ 1 → ∃ e, find_offset pattern ms offset = Except.error e) := by
  constructor
  · rintro m rfl
    simp [find_offset, hp]
  · intro hlen
    rcases ms with _ | ⟨m, rest⟩
    · exact ⟨"Could not find offset", by simp [find_offset, hp]⟩
    · rcases rest with _ | ⟨m2, rest⟩
      · simp at hlen
      · exact ⟨"Multiple offset matches found", by
          simp [find_offset, hp]⟩

/-- Witness for C9 amended: pattern `[0x61]`, a single match at 4 with
delta 2 returns 6; the same pattern with no matches errors. -/
theorem C9_find_offset_amended_witness :
    find_offset [0x61] [4] 2 = Except.ok 6 ∧
      (∃ e, find_offset [0x61] [] 2 = Except.error e) :=
  ⟨(C9_find_offset_amended [0x61] [4] 2 (by decide)).1 4 rfl,
    (C9_find_offset_amended [0x61] [] 2 (by decide)).2 (by decide)⟩

theorem append_fixup_suffix (recs : List (List FixupTuple))
    (e : Option (Nat × FixupTuple)) (i : Nat) :
    ∃ app, (append_fixup recs e).getD i [] = recs.getD i [] ++ app := by
  match e with
  | none => exact ⟨[], by simp [append_fixup]⟩
  | some (p, fx) =>
    by_cases hip : p = i ∧ p < recs.length
    · refine ⟨[fx], ?_⟩
      simp only [append_fixup]
      rw [List.getD_eq_getElem?_getD, List.getElem?_set, if_pos hip.1, if_pos hip.2,
        hip.1]
      rfl
    · refine ⟨[], ?_⟩
      simp only [append_fixup, List.append_nil]
      rw [List.getD_eq_getElem?_getD, List.getElem?_set]
      by_cases h1 : p = i
      · rw [if_pos h1, if_neg (fun h2 => hip ⟨h1, h2⟩)]
        rw [List.getD_eq_getElem?_getD,
          List.getElem?_eq_none (by subst h1; omega)]
      · rw [if_neg h1, ← List.getD_eq_getElem?_getD]

theorem add_patch_fixups_suffix (mc : List Nat) (O ps : Nat) :
    ∀ (instrs : List X86Instr) (recs : List (List FixupTuple)) (i : Nat),
      ∃ app, (add_patch_fixups recs mc O ps instrs).getD i [] =
        recs.getD i [] ++ app := by
  intro instrs
  induction instrs with
  | nil =>
    intro recs i
    exact ⟨[], by simp [add_patch_fixups]⟩
  | cons ins rest ih =>
    intro recs i
    obtain ⟨app1, h1⟩ := append_fixup_suffix recs (fixup_for_instr mc O ps ins) i
    obtain ⟨app2, h2⟩ := ih (append_fixup recs (fixup_for_instr mc O ps ins)) i
    refine ⟨app1 ++ app2, ?_⟩
    rw [show add_patch_fixups recs mc O ps (ins :: rest) =
      add_patch_fixups (append_fixup recs (fixup_for_instr mc O ps ins)) mc O ps rest
      from rfl]
    rw [h2, h1, List.append_assoc]

/-- Claim C3 counterexample: a record with `srcoff = 5000` (a 16-bit
field, allowed to exceed the page size 4096) on page 0 has absolute
address 5000 inside the patch range `[4500, 5100)` of a full
600-byte `CodePatch` application (600 NOPs, which the synthesizer's
fallthrough ignores), yet survives it untouched, because page 0's
window `[0, 4096)` does not intersect the range and the removal loop
skips the page.  The claim as stated is therefore false. -/
theorem C3_fixup_removal_counterexample :
    ((apply_code_patch [[FixupTuple.mk "fix_32off_32" 7 16 2 5000 (some 0)]] []
        (List.replicate 600 144) 4500 4096
        ((List.range 600).map (fun k => X86Instr.mk k X86Code.other 0))).1).getD 0 [] =
      [FixupTuple.mk "fix_32off_32" 7 16 2 5000 (some 0)] ∧
    FixupTuple.mk "fix_32off_32" 7 16 2 5000 (some 0) ∈
      ([[FixupTuple.mk "fix_32off_32" 7 16 2 5000 (some 0)]] :
        List (List FixupTuple)).getD 0 [] ∧
    4500 ≤ 0 * 4096 + 5000 ∧
    0 * 4096 + 5000 < 4500 + (List.replicate 600 (144 : Nat)).length := by
  refine ⟨by decide, by decide, by decide, by decide⟩

/-- Claim C3 amended: after the patch engine applies a `CodePatch`
with payload `mod_code` at offset O, each page's fixup list is the
survivors of the removal step followed only by newly synthesized
records, and no survivor WHOSE `srcoff` IS LESS THAN THE PAGE SIZE
has absolute address `page * ps + srcoff` in
`[O, O + len(mod_code))`; every survivor was in the original page
list.  (Original records with `srcoff ≥ ps` may survive inside the
range, as the counterexample shows.) -/
theorem C3_fixup_removal_amended (records : List (List FixupTuple))
    (page_data mod_code : List Nat) (O ps : Nat) (instrs : List X86Instr)
    (i : Nat) (r : FixupTuple)
    (hr : r ∈ (remove_patched_fixups records O (O + mod_code.length) ps).getD i [])
    (hso : r.srcoff < ps) :
    (∃ appended, ((apply_code_patch records page_data mod_code O ps instrs).1).getD i [] =
      (remove_patched_fixups records O (O + mod_code.length) ps).getD i [] ++ appended) ∧
    r ∈ records.getD i [] ∧
    ¬ (O ≤ i * ps + r.srcoff ∧ i * ps + r.srcoff < O + mod_code.length) := by
  have hs := remove_fixups_from_spec O (O + mod_code.length) ps records 0 i r hr hso
  refine ⟨?_, hs.1, by simpa [Nat.zero_add] using hs.2⟩
  exact add_patch_fixups_suffix mod_code O ps instrs
    (remove_patched_fixups records O (O + mod_code.length) ps) i

/-- Witness for C3 amended: a record with in-page `srcoff = 10`
survives a one-byte patch at offset 0 and lies outside its range. -/
theorem C3_fixup_removal_amended_witness :
    (∃ appended, ((apply_code_patch [[FixupTuple.mk "fix_32off_32" 7 16 2 10 (some 0)]]
        [] [144] 0 4096 [X86Instr.mk 0 X86Code.other 0]).1).getD 0 [] =
      (remove_patched_fixups [[FixupTuple.mk "fix_32off_32" 7 16 2 10 (some 0)]]
        0 (0 + ([144] : List Nat).length) 4096).getD 0 [] ++ appended) ∧
    FixupTuple.mk "fix_32off_32" 7 16 2 10 (some 0) ∈
      ([[FixupTuple.mk "fix_32off_32" 7 16 2 10 (some 0)]] :
        List (List FixupTuple)).getD 0 [] ∧
    ¬ (0 ≤ 0 * 4096 + 10 ∧ 0 * 4096 + 10 < 0 + ([144] : List Nat).length) :=
  C3_fixup_removal_amended [[FixupTuple.mk "fix_32off_32" 7 16 2 10 (some 0)]]
    [] [144] 0 4096 [X86Instr.mk 0 X86Code.other 0] 0 _ (by decide) (by decide)

/-- C1: for every byte stream B that is a valid concatenation of fixup
records (validity = `fixups_decode` succeeds, which holds exactly when
every record follows the dispatch rules of `le.py`), re-encoding the
decoded records reproduces B exactly. -/
theorem C1_fixup_codec_roundtrip (B : List Nat) (hB : ∀ b ∈ B, b < 256)
    (l : List FixupTuple) (hdec : fixups_decode B = some l) :
    fixups_encode l = some B :=
  fixups_roundtrip_aux B hB l hdec

/-- Witness for C1: the round trip evaluated on the 9-byte record stream
`07 10 34 12 03 ef be ad de`. -/
theorem C1_fixup_codec_roundtrip_witness :
    (∀ b ∈ [7, 16, 52, 18, 3, 239, 190, 173, 222], b < 256) ∧
    fixups_decode [7, 16, 52, 18, 3, 239, 190, 173, 222] =
      some [FixupTuple.mk "fix_32off_32" 7 16 2 4660 (some 3735928559)] ∧
    fixups_encode [FixupTuple.mk "fix_32off_32" 7 16 2 4660 (some 3735928559)] =
      some [7, 16, 52, 18, 3, 239, 190, 173, 222] :=
  ⟨by decide, by decide,
    C1_fixup_codec_roundtrip _ (by decide) _ (by decide)⟩

/-- C8 counterexample: `fixups_decode` on `07 10 34 12 03 ef be ad de`
does NOT return a record with `data = 0xdeadbead` (3735928493): the
little-endian dword `ef be ad de` is `0xdeadbeef` (3735928559). -/
theorem C8_decode_example_counterexample :
    fixups_decode [0x07, 0x10, 0x34, 0x12, 0x03, 0xef, 0xbe, 0xad, 0xde] ≠
      some [FixupTuple.mk "fix_32off_32" 0x7 0x10 2 0x1234 (some 0xdeadbead)] := by
  decide

/-- C8 amended: `fixups_decode` on that buffer returns exactly one
`fix_32off_32` record with `srcoff = 0x1234`, `objnum = 2` and
`data = 0xdeadbeef`, and `fixups_encode` of that singleton list
reproduces the input buffer. -/
theorem C8_decode_example_amended :
    fixups_decode [0x07, 0x10, 0x34, 0x12, 0x03, 0xef, 0xbe, 0xad, 0xde] =
      some [FixupTuple.mk "fix_32off_32" 0x7 0x10 2 0x1234 (some 0xdeadbeef)] ∧
    fixups_encode [FixupTuple.mk "fix_32off_32" 0x7 0x10 2 0x1234 (some 0xdeadbeef)] =
      some [0x07, 0x10, 0x34, 0x12, 0x03, 0xef, 0xbe, 0xad, 0xde] := by
  constructor <;> decide


/-- Claim C6 counterexample: on the two-stub image (outer MZ stub at
offset 0, inner MZ header with reloc-table offset 0x40 and
`code32_start = 128` at offset 64), `search_for_le` returns the pair
`(inner_mz_off, inner_mz_off + code32_start) = (64, 192)`, NOT
`(outer_mz_off, inner_mz_off + code32_start) = (0, 192)` as the
claim states. -/
theorem C6_le_locator_counterexample :
    search_for_le twoStubImage = some (64, 64 + 128) ∧
      search_for_le twoStubImage ≠ some (0, 64 + 128) := by
  constructor <;> decide

/-- Claim C6 amended: for every image made of an outer MZ stub (whose
reloc-table offset is not 0x40, or whose `code32_start` is zero)
advancing by `(page_count << 9) + last_page_bytes - 0x200` to an
inner MZ header with reloc-table offset 0x40 and nonzero
`code32_start`, `search_for_le` returns
`(INNER_mz_off, inner_mz_off + code32_start)` - the first component
is the offset of the stub containing the LE, not of the outer stub. -/
theorem C6_le_locator_amended (exe : List Nat) (t : Nat)
    (ht : u16at (exe.take 64) 0x4 * 512 + u16at (exe.take 64) 0x2 - 0x200 = t)
    (hlen : t < exe.length) (hlen0 : 0 < t)
    (hmz0 : exe.take 2 = [0x4D, 0x5A])
    (hskip : u16at (exe.take 64) 0x18 = 0x40 → u16at (exe.take 64) 0x3C = 0)
    (hmzt : (exe.drop t).take 2 = [0x4D, 0x5A])
    (hrtot : u16at ((exe.drop t).take 64) 0x18 = 0x40)
    (hc32 : u16at ((exe.drop t).take 64) 0x3C ≠ 0) :
    search_for_le exe = some (t, t + u16at ((exe.drop t).take 64) 0x3C) := by
  have htk0 : (exe.take 64).take 2 = exe.take 2 := by
    rw [List.take_take]
    norm_num
  have htkt : ((exe.drop t).take 64).take 2 = (exe.drop t).take 2 := by
    rw [List.take_take]
    norm_num
  have hcond : ¬ (u16at (exe.take 64) 0x18 = 0x40 ∧ u16at (exe.take 64) 0x3C ≠ 0) := by
    intro hh
    exact hh.2 (hskip hh.1)
  obtain ⟨n, hn⟩ : ∃ n, exe.length = n + 1 := ⟨exe.length - 1, by omega⟩
  rw [search_for_le, search_for_le_from]
  simp only [List.drop_zero]
  rw [if_pos (by omega : 0 < exe.length), if_pos (by rw [htk0, hmz0]; left; rfl),
    if_neg hcond, if_pos (by rw [htk0]; exact hmz0), ht, hn]
  rw [search_for_le_from]
  rw [if_pos (by omega : 0 + t < exe.length)]
  simp only [Nat.zero_add]
  rw [if_pos (by rw [htkt, hmzt]; left; rfl), if_pos ⟨hrtot, hc32⟩]

/-- Witness for C6 amended: the two-stub image, where the inner
header sits at 64 with `code32_start = 128`. -/
theorem C6_le_locator_amended_witness :
    search_for_le twoStubImage = some (64, 192) := by
  have h := C6_le_locator_amended twoStubImage 64 (by decide) (by decide) (by decide)
    (by decide) (by decide) (by decide) (by decide) (by decide)
  rw [h]
  decide

/-- Claim C2: the per-instruction fixup synthesis of a `CodePatch` at
offset O appends, for each decoded instruction with a supported
opcode, exactly one new `fix_32off_32` record (src 0x7, flags 0x10)
to page `(O+ip) div page_size`, with `srcoff = (O+ip) mod page_size +
operand_offset` (+2 for the r/m32 arithmetic/move group, +2 for
MOV_RM32_R32/SUB_RM32_R32 only under a nonzero memory displacement,
+1 for the moffs group, +3 for MOV_RM16_IMM16 and JMP_RM32),
`objnum = CODE_OBJ` for JMP_RM32 and `DATA_OBJ` otherwise, and
`data` = the little-endian dword of the payload at
`ip + operand_offset`; any other opcode adds nothing. -/
theorem C2_fixup_synthesis (P : List Nat) (O ps : Nat) (instr : X86Instr)
    (records : List (List FixupTuple))
    (hpage : (O + instr.ip) / ps < records.length) :
    (instr.code ∈ ([.add_rm32_r32, .mov_rm32_imm32, .and_r8_rm8, .test_rm8_imm8,
        .cmp_r32_rm32, .cmp_rm8_imm8, .mov_r8_rm8, .mov_r32_rm32, .add_r32_rm32,
        .and_rm8_imm8] : List X86Code) →
      append_fixup records (fixup_for_instr P O ps instr) =
        records.set ((O + instr.ip) / ps) (records.getD ((O + instr.ip) / ps) [] ++
          [FixupTuple.mk "fix_32off_32" 0x7 0x10 DATA_OBJ ((O + instr.ip) % ps + 2)
            (some (u32at P (instr.ip + 2)))])) ∧
    ((instr.code = .mov_rm32_r32 ∨ instr.code = .sub_rm32_r32) →
      (instr.memory_displacement ≠ 0 →
        append_fixup records (fixup_for_instr P O ps instr) =
          records.set ((O + instr.ip) / ps) (records.getD ((O + instr.ip) / ps) [] ++
            [FixupTuple.mk "fix_32off_32" 0x7 0x10 DATA_OBJ ((O + instr.ip) % ps + 2)
              (some (u32at P (instr.ip + 2)))])) ∧
      (instr.memory_displacement = 0 →
        append_fixup records (fixup_for_instr P O ps instr) = records)) ∧
    (instr.code ∈ ([.mov_al_moffs8, .mov_moffs32_eax, .mov_eax_moffs32] : List X86Code) →
      append_fixup records (fixup_for_instr P O ps instr) =
        records.set ((O + instr.ip) / ps) (records.getD ((O + instr.ip) / ps) [] ++
          [FixupTuple.mk "fix_32off_32" 0x7 0x10 DATA_OBJ ((O + instr.ip) % ps + 1)
            (some (u32at P (instr.ip + 1)))])) ∧
    (instr.code = .mov_rm16_imm16 →
      append_fixup records (fixup_for_instr P O ps instr) =
        records.set ((O + instr.ip) / ps) (records.getD ((O + instr.ip) / ps) [] ++
          [FixupTuple.mk "fix_32off_32" 0x7 0x10 DATA_OBJ ((O + instr.ip) % ps + 3)
            (some (u32at P (instr.ip + 3)))])) ∧
    (instr.code = .jmp_rm32 →
      append_fixup records (fixup_for_instr P O ps instr) =
        records.set ((O + instr.ip) / ps) (records.getD ((O + instr.ip) / ps) [] ++
          [FixupTuple.mk "fix_32off_32" 0x7 0x10 CODE_OBJ ((O + instr.ip) % ps + 3)
            (some (u32at P (instr.ip + 3)))])) ∧
    (instr.code = .other →
      append_fixup records (fixup_for_instr P O ps instr) = records) := by
  obtain ⟨ip, code, md⟩ := instr
  refine ⟨?_, ?_, ?_, ?_, ?_, ?_⟩
  · intro h
    simp only [List.mem_cons, List.not_mem_nil, or_false] at h
    rcases h with rfl | rfl | rfl | rfl | rfl | rfl | rfl | rfl | rfl | rfl <;>
      simp [fixup_for_instr, append_fixup]
  · intro h
    rcases h with rfl | rfl <;>
      exact ⟨fun hmd => by simp at hmd; simp [fixup_for_instr, append_fixup, hmd],
        fun hmd => by simp at hmd; simp [fixup_for_instr, append_fixup, hmd]⟩
  · intro h
    simp only [List.mem_cons, List.not_mem_nil, or_false] at h
    rcases h with rfl | rfl | rfl <;>
      simp [fixup_for_instr, append_fixup]
  · rintro rfl
    simp [fixup_for_instr, append_fixup]
  · rintro rfl
    simp [fixup_for_instr, append_fixup]
  · rintro rfl
    simp [fixup_for_instr, append_fixup]


/-- Witness for C2: a `MOV_EAX_MOFFS32` instruction (`a1 78 56 34 12`)
at IP 0 with patch offset 4096 and page size 4096 appends one record
with `srcoff = 1`, `objnum = DATA_OBJ`, `data = 0x12345678` to
page 1. -/
theorem C2_fixup_synthesis_witness :
    append_fixup [[], []]
        (fixup_for_instr [0xa1, 0x78, 0x56, 0x34, 0x12] 4096 4096
          (X86Instr.mk 0 X86Code.mov_eax_moffs32 0x12345678)) =
      [[], [FixupTuple.mk "fix_32off_32" 0x7 0x10 DATA_OBJ 1 (some 0x12345678)]] := by
  have h := (C2_fixup_synthesis [0xa1, 0x78, 0x56, 0x34, 0x12] 4096 4096
    (X86Instr.mk 0 X86Code.mov_eax_moffs32 0x12345678) [[], []] (by decide)).2.2.1
    (by decide)
  rw [h]
  decide

/-- Witness for C10: splicing `[9, 9]` into `[1, 2, 3, 4, 5]` at
offset 1 keeps length 5, byte 0 and byte 3, and places the payload
at positions 1-2. -/
theorem C10_splice_frame_witness :
    1 + ([9, 9] : List Nat).length ≤ ([1, 2, 3, 4, 5] : List Nat).length ∧
      (splice_bytes [1, 2, 3, 4, 5] [9, 9] 1).length = 5 ∧
      (splice_bytes [1, 2, 3, 4, 5] [9, 9] 1)[0]? = some 1 ∧
      (splice_bytes [1, 2, 3, 4, 5] [9, 9] 1)[3]? = some 4 ∧
      (splice_bytes [1, 2, 3, 4, 5] [9, 9] 1)[1]? = some 9 := by
  have h := C10_splice_frame [1, 2, 3, 4, 5] [9, 9] 1 (by decide)
  refine ⟨by decide, ?_, ?_, ?_, ?_⟩
  · rw [h.1]
    decide
  · rw [h.2.1 0 (by decide)]
    decide
  · rw [h.2.2.1 3 (by decide)]
    decide
  · have := h.2.2.2 0 (by decide)
    simpa using this


/-- Claim C7 counterexample: on the buffer with THREE spaces before
the `\xb3` closing the title line, the greedy `([A-Za-z ]+)` group
captures `"Under a Killing Moon  "` (two trailing spaces, since the
following `\x20+` needs only one), the supported-game check fails,
and `detect_version` raises `DataNotFound` instead of returning the
claimed triple. -/
theorem C7_detect_version_counterexample :
    detect_version s1TitleScreen = Except.error "Unknown game" ∧
      detect_version s1TitleScreen ≠
        Except.ok (uakmBytes, [49, 46, 48, 50], unknownBytes) := by
  refine ⟨rfl, ?_⟩
  intro h
  rw [show detect_version s1TitleScreen = Except.error "Unknown game" from rfl] at h
  exact Except.noConfusion h

/-- Claim C7 amended: with a single space before the title line's
closing `\xb3` (as in the shipped executables), `detect_version`
returns `("Under a Killing Moon", "1.02", "UNKNOWN")`. -/
theorem C7_detect_version_amended :
    detect_version s1TitleScreenOneSpace =
      Except.ok (uakmBytes, [49, 46, 48, 50], unknownBytes) := rfl


/-- Claim C5: after the writer rebuilds the output, the emitted
header satisfies `fixup_record_table_offset = fixup_page_table_offset
+ len(page table bytes)`, `fixup_section_size = len(page table bytes)
+ len(record bytes)`, `import_module_table_offset =
fixup_page_table_offset + fixup_section_size`,
`import_proc_table_offset = import_module_table_offset`,
`data_pages_offset = le_off + import_module_table_offset +
len(post_fixup_blob) - mz_off`, `fixup_section_csum = 0`, and the
output carries `post_fixup_blob` - the input bytes between the
original `import_module_table_offset` and the original
`data_pages_offset` - verbatim between the record table and the page
data. -/
theorem C5_writer_header (f : List Nat) (mz le : Nat) (H : LEHeader)
    (fixup_output : List (List Nat)) (page_data : List Nat) :
    let ptb := ((fixup_output.map List.length).scanl (fun a x => a + x) 0).flatMap u32le
    let rcb := fixup_output.flatten
    let blob := (f.drop (le + H.import_module_table_offset)).take
      ((mz + H.data_pages_offset - le) - H.import_module_table_offset)
    let W := write_output f mz le H fixup_output page_data
    W.1.fixup_record_table_offset = H.fixup_page_table_offset + ptb.length ∧
    W.1.fixup_section_size = ptb.length + rcb.length ∧
    W.1.import_module_table_offset = H.fixup_page_table_offset + W.1.fixup_section_size ∧
    W.1.import_proc_table_offset = W.1.import_module_table_offset ∧
    W.1.fixup_section_csum = 0 ∧
    W.1.data_pages_offset = le + W.1.import_module_table_offset + blob.length - mz ∧
    W.2 = f.take le ++ LEHeader.export W.1 ++
      sliceL f (le + 176) (le + H.fixup_page_table_offset) ++
      ptb ++ rcb ++ blob ++ page_data :=
  ⟨rfl, rfl, rfl, rfl, rfl, rfl, rfl⟩

end Tex3
